import Mathlib

/-!
Verification of the Overmind room brain (`src/brains/Brain_Room.ts`).

This file gives a shallow embedding of the task-assignment engine
(`getTasks`, `getMostUrgentTask`, `assignTask`), the equilibrium
calculators (`calculateHaulerSize`, `calculateHaulerRequirements`) and the
production scheduler dispatch (`handleSpawnOperations`), and proves the
behavioural properties claimed of them.

JavaScript numbers are modelled as rationals (`ℚ`), with `Math.floor` /
`Math.ceil` as `Int.floor` / `Int.ceil` cast back to `ℚ`.  Game objects
(structures, resources, the controller) are modelled by one record `Obj`
carrying the fields the brain reads — this mirrors the duck-typed targets
of the source.  The per-target count `target.targetedBy.length` is
modelled as a function `targeted : Nat → Nat` from object ids to counts,
threaded through assignment calls.
-/

namespace Overmind

section BrainModel

/- Batteries marks the rational-number operations `@[irreducible]`; the
concrete scenarios below are checked by kernel evaluation, which needs
them unfolded. -/
attribute [local semireducible] Rat.add Rat.sub Rat.mul Rat.inv Rat.ofScientific

/-- `Math.floor` on an exact rational. -/
def jsFloor (q : ℚ) : ℤ := q.num / q.den

/-- `Math.ceil` on an exact rational. -/
def jsCeil (q : ℚ) : ℤ := -jsFloor (-q)

/-- A game object as the room brain sees it: id, structure type, hit
points, stored/carried amounts and energy.  `alive` records whether the
object still exists in the game world (used to model stale targets: the
object was listed in a snapshot but may have been destroyed). -/
structure Obj where
  oid : Nat
  otype : String
  hits : ℚ
  hitsMax : ℚ
  amount : ℚ
  store : ℚ
  energy : ℚ
  energyCapacity : ℚ
  alive : Bool
deriving DecidableEq, Repr

/-- The room controller: underlying object, ownership flag and level. -/
structure Controller where
  obj : Obj
  my : Bool
  level : Nat
deriving DecidableEq, Repr

/-- The per-category object lists the brain queries from the room
snapshot (`room.find` and the room prototype getters). -/
structure Room where
  name : String
  droppedEnergy : List Obj
  containers : List Obj
  towers : List Obj
  sinks : List Obj
  repairables : List Obj
  structureSites : List Obj
  roadSites : List Obj
  barriers : List Obj
  controller : Option Controller
deriving DecidableEq, Repr

/-- An agent: role tag, active body-part counts, carried energy and
capacity, and the name of the room it is currently in. -/
structure Creep where
  role : String
  carryParts : Nat
  workParts : Nat
  carryEnergy : ℚ
  carryCapacity : ℚ
  room : String
deriving DecidableEq, Repr

/-- A work item (`Task` in the source): the task name set by the task
class constructor, the category (task type) it was catalogued under, the
target object, and the task class's maximum-concurrent-creeps cap. -/
structure Task where
  name : String
  category : String
  target : Obj
  maxPerTarget : Nat
deriving DecidableEq, Repr

/-- `this.taskPriorities` (Brain_Room.ts line 93): the fixed priority
ranking, highest first. -/
def taskPriorities : List String :=
  ["supplyTowers", "supply", "pickup", "collect", "repair", "build",
   "buildRoads", "fortify", "upgrade"]

/-- `this.taskToExecute` (line 105): task class name used for each
catalogued task type. -/
def taskToExecute (taskType : String) : String :=
  match taskType with
  | "pickup" => "pickup"
  | "collect" => "recharge"
  | "supplyTowers" => "supply"
  | "supply" => "supply"
  | "repair" => "repair"
  | "build" => "build"
  | "buildRoads" => "build"
  | "fortify" => "fortify"
  | "upgrade" => "upgrade"
  | _ => ""

/-- Whether the room has a controller at level 8 (the guard on line
128). -/
def controllerLevel8 (room : Room) : Bool :=
  match room.controller with
  | some c => c.level == 8
  | none => false

/-- `this.assignmentRoles` (line 117) together with the constructor
override at line 128: at controller level 8 the upgrade category is
narrowed to upgraders only. -/
def assignmentRoles (room : Room) (taskType : String) : List String :=
  if taskType = "upgrade" ∧ controllerLevel8 room then
    ["upgrader"]
  else
    match taskType with
    | "pickup" => []
    | "collect" => ["hauler"]
    | "supplyTowers" => ["supplier", "hauler"]
    | "supply" => ["supplier", "hauler"]
    | "repair" => ["worker", "miner", "guard"]
    | "build" => ["worker", "miner"]
    | "buildRoads" => ["worker", "guard"]
    | "fortify" => ["worker"]
    | "upgrade" => ["worker", "upgrader"]
    | _ => []

/-- `this.assignmentConditions` (line 132): the capability predicate a
creep must satisfy for each task type. -/
def assignmentConditions (taskType : String) (c : Creep) : Bool :=
  match taskType with
  | "pickup" => decide (0 < c.carryParts) && decide (c.carryEnergy < c.carryCapacity)
  | "collect" => decide (0 < c.carryParts) && decide (c.carryEnergy < c.carryCapacity)
  | "supplyTowers" => decide (0 < c.carryParts) && decide (0 < c.carryEnergy)
  | "supply" => decide (0 < c.carryParts) && decide (0 < c.carryEnergy)
  | "repair" => decide (0 < c.workParts) && decide (0 < c.carryEnergy)
  | "build" => decide (0 < c.workParts) && decide (0 < c.carryEnergy)
  | "buildRoads" => decide (0 < c.workParts) && decide (0 < c.carryEnergy)
  | "fortify" => decide (0 < c.workParts) && decide (0 < c.carryEnergy)
  | "upgrade" => decide (0 < c.workParts) && decide (0 < c.carryEnergy)
  | _ => false

/-- The effective fortify level (constructor lines 40-80 and the
`getTasks` fortify branch, lines 212-216).  The shared settings put
`fortifyLevel = min(10 ^ max(controller.level, 3), 1e6)` when a
controller exists; incubating rooms replace the whole settings object,
whose fortify level is `1e4`.  The per-room override table
`this.override.fortifyLevel` is empty in the source (line 87), so the
override lookup never fires. -/
def fortifyLevelOf (incubating : Bool) (room : Room) : ℚ :=
  if incubating then 10000
  else
    match room.controller with
    | some c => min ((10 : ℚ) ^ max c.level 3) 1000000
    | none => 1000000

/-- Build the task list for one category: one task per target, with the
task-class name and cap.  `caps` gives each task class's
`maxPerTarget` (the task classes live outside `src/`, so the cap values
are parameters). -/
def mkTasks (name category : String) (cap : Nat) (targets : List Obj) : List Task :=
  targets.map fun t =>
    { name := name, category := category, target := t, maxPerTarget := cap }

/-- `getTasks` (lines 175-229): the work-item catalog, one
category-specific predicate over the room snapshot per task type. -/
def getTasks (caps : String → Nat) (incubating : Bool) (room : Room)
    (taskType : String) : List Task :=
  match taskType with
  | "pickup" =>
    mkTasks "pickup" "pickup" (caps "pickup")
      (room.droppedEnergy.filter fun d => decide (100 < d.amount))
  | "collect" =>
    mkTasks "recharge" "collect" (caps "recharge")
      (room.containers.filter fun c => decide (1000 < c.store))
  | "supplyTowers" =>
    mkTasks "supply" "supplyTowers" (caps "supply")
      (room.towers.filter fun t => decide (t.energy < t.energyCapacity))
  | "supply" =>
    mkTasks "supply" "supply" (caps "supply")
      (room.sinks.filter fun s => decide (s.energy < s.energyCapacity))
  | "repair" =>
    mkTasks "repair" "repair" (caps "repair")
      (room.repairables.filter fun s =>
        decide (s.hits < s.hitsMax) &&
        (decide (s.otype ≠ "container") || decide (s.hits < 0.7 * s.hitsMax)) &&
        (decide (s.otype ≠ "road") || decide (s.hits < 0.7 * s.hitsMax)))
  | "build" =>
    mkTasks "build" "build" (caps "build") room.structureSites
  | "buildRoads" =>
    mkTasks "build" "buildRoads" (caps "build") room.roadSites
  | "fortify" =>
    mkTasks "fortify" "fortify" (caps "fortify")
      (room.barriers.filter fun s => decide (s.hits < fortifyLevelOf incubating room))
  | "upgrade" =>
    match room.controller with
    | some c => if c.my then mkTasks "upgrade" "upgrade" (caps "upgrade") [c.obj] else []
    | none => []
  | _ => []

/-- The filter applied inside `getMostUrgentTask` (line 235): drop tasks
whose target is already targeted by at least `maxPerTarget` creeps. -/
def filteredTasks (caps : String → Nat) (incubating : Bool) (room : Room)
    (targeted : Nat → Nat) (taskType : String) : List Task :=
  (getTasks caps incubating room taskType).filter fun task =>
    decide (targeted task.target.oid < task.maxPerTarget)

/-- `getMostUrgentTask` (lines 231-241): walk the ranked task types in
order and return the uncapped tasks of the first type that has any. -/
def getMostUrgentTask (caps : String → Nat) (incubating : Bool) (room : Room)
    (targeted : Nat → Nat) : List String → List Task
  | [] => []
  | taskType :: rest =>
    let tasks := filteredTasks caps incubating room targeted taskType
    if 0 < tasks.length then tasks
    else getMostUrgentTask caps incubating room targeted rest

/-- The eligibility filter in `assignTask` (line 244): task types whose
allowed-roles set contains the creep's role and whose capability
condition the creep satisfies, in priority order. -/
def applicableTasks (room : Room) (creep : Creep) : List String :=
  taskPriorities.filter fun t =>
    (assignmentRoles room t).contains creep.role && assignmentConditions t creep

/-- First element of `_.sortBy(l, f)`: the first element of `l`
attaining the minimal key (lodash `sortBy` is a stable sort). -/
def sortByFirst (f : Task → ℚ) : List Task → Option Task
  | [] => none
  | x :: xs =>
    match sortByFirst f xs with
    | none => some x
    | some y => if f x ≤ f y then some x else some y

/-- The selection part of `assignTask` (lines 243-261): eligible
categories, most urgent task list, then the tie-break — lowest hit
points for fortify, else nearest by the distance oracle when the creep
is in the room, else the first task in catalog order.  `dist` is the
external path-distance oracle (`creep.pos.getRangeTo`). -/
def chooseTask (caps : String → Nat) (incubating : Bool) (room : Room)
    (dist : Creep → Obj → ℚ) (targeted : Nat → Nat) (creep : Creep) : Option Task :=
  let tasks := getMostUrgentTask caps incubating room targeted
    (applicableTasks room creep)
  match tasks with
  | [] => none
  | t0 :: _ =>
    if t0.name = "fortify" then sortByFirst (fun task => task.target.hits) tasks
    else if creep.room = room.name then
      sortByFirst (fun task => dist creep task.target) tasks
    else some t0

/-- Modelled from the spec: the commit step `creep.assign(task)` is
defined outside `src/` (a creep prototype extension); per spec §7
(StaleTargetReference) it re-validates that the task's target still
exists and refuses to commit to a dead target.  On success it records
the assignment (incrementing the target's targeted-by count) and
returns the task name; on a dead target it commits nothing and returns
the empty string. -/
def creepAssign (targeted : Nat → Nat) (task : Task) : String × (Nat → Nat) :=
  if task.target.alive then
    (task.name, fun i => if i = task.target.oid then targeted i + 1 else targeted i)
  else ("", targeted)

/-- `assignTask` (lines 243-267): choose a task and commit the creep to
it; returns the empty string (and leaves the counts unchanged) when
nothing was assigned. -/
def assignTask (caps : String → Nat) (incubating : Bool) (room : Room)
    (dist : Creep → Obj → ℚ) (creep : Creep) (targeted : Nat → Nat) :
    String × (Nat → Nat) :=
  match chooseTask caps incubating room dist targeted creep with
  | some task => creepAssign targeted task
  | none => ("", targeted)

/-- A sequence of `assignTask` calls within one cycle, threading the
targeted-by counts. -/
def assignSeq (caps : String → Nat) (incubating : Bool) (room : Room)
    (dist : Creep → Obj → ℚ) : List Creep → (Nat → Nat) → (Nat → Nat)
  | [], targeted => targeted
  | creep :: rest, targeted =>
    assignSeq caps incubating room dist rest
      (assignTask caps incubating room dist creep targeted).2

/-- The commitment-cap invariant: every work item currently in the
catalog has a targeted-by count at most its cap. -/
def catalogInv (caps : String → Nat) (incubating : Bool) (room : Room)
    (targeted : Nat → Nat) : Prop :=
  ∀ tt ∈ taskPriorities, ∀ t ∈ getTasks caps incubating room tt,
    targeted t.target.oid ≤ t.maxPerTarget

/-- Cap-consistency of the catalog: any two work items sharing a target
have the same cap (in the source, caps are per task class while
targeted-by counts are per target, so this ties the two together). -/
def capsConsistent (caps : String → Nat) (incubating : Bool) (room : Room) : Prop :=
  ∀ tt₁ ∈ taskPriorities, ∀ tt₂ ∈ taskPriorities,
    ∀ t₁ ∈ getTasks caps incubating room tt₁,
      ∀ t₂ ∈ getTasks caps incubating room tt₂,
        t₁.target.oid = t₂.target.oid → t₁.maxPerTarget = t₂.maxPerTarget

/-! ## Equilibrium calculators -/

/-- The environment `calculateHaulerSize` / `calculateHaulerRequirements`
read: spawn availability, storage presence, link state of the source and
of storage, the room's energy capacity, the source's path length to
storage, and the hauler role's body pattern data (the role class lives
outside `src/`, so its CARRY-part count, pattern length and per-pattern
spawn cost are parameters). -/
structure HaulerCtx where
  hasSpawn : Bool
  hasRoom : Bool
  hasStorage : Bool
  sourceLinked : Bool
  storageLinked : Bool
  energyCapacityAvailable : ℚ
  haulerCarryParts : ℕ
  haulerPatternLength : ℚ
  haulerSpawnCost : ℚ
  pathLengthToStorage : ℚ
deriving DecidableEq, Repr

/-- `calculateHaulerSize` (lines 315-325): required hauler repetitions
to saturate a source, `ceil(1.1 * sourceEnergyPerTick /
(energyPerTrip / tripLength))`. -/
def calculateHaulerSize (ctx : HaulerCtx) : ℚ :=
  let tripLength : ℚ := 2 * ctx.pathLengthToStorage
  let carryPartsPerRepetition : ℚ := ctx.haulerCarryParts
  let energyPerTripPerRepetition : ℚ := 50 * carryPartsPerRepetition
  let energyPerTickPerRepetition : ℚ := energyPerTripPerRepetition / tripLength
  let sourceEnergyPerTick : ℚ := 3000 / 300
  let sizeRequiredForEquilibrium : ℚ := sourceEnergyPerTick / energyPerTickPerRepetition
  (jsCeil ((1.1 : ℚ) * sizeRequiredForEquilibrium) : ℚ)

/-- The maximum affordable single-hauler size (line 337):
`min(floor(energyCapacity / cost), 50 / patternLength)`. -/
def maxHaulerSizeOf (ctx : HaulerCtx) : ℚ :=
  min ((jsFloor (ctx.energyCapacityAvailable / ctx.haulerSpawnCost) : ℤ) : ℚ)
    (50 / ctx.haulerPatternLength)

/-- `calculateHaulerRequirements` (lines 327-348): returns
`[haulerSize, numHaulers]`.  When the required size exceeds the maximum
affordable size, the real-valued ratio `numHaulers = haulerSize / max`
is formed first, the per-hauler size is recomputed as
`ceil(max * (numHaulers / ceil(numHaulers)))`, and only then is
`numHaulers` rounded up to an integer. -/
def calculateHaulerRequirements (ctx : HaulerCtx) : ℚ × ℚ :=
  if ctx.hasSpawn ∧ ctx.hasRoom ∧ ctx.hasStorage then
    if ctx.sourceLinked ∧ ctx.storageLinked then (0, 0)
    else
      let haulerSize := calculateHaulerSize ctx
      let maxHaulerSize := maxHaulerSizeOf ctx
      if maxHaulerSize < haulerSize then
        let numHaulers : ℚ := haulerSize / maxHaulerSize
        ((jsCeil (maxHaulerSize * (numHaulers / (jsCeil numHaulers : ℚ))) : ℚ),
         (jsCeil numHaulers : ℚ))
      else (haulerSize, 1)
  else (0, 0)

/-! ## Production scheduler dispatch -/

/-- The result each of the four scheduler stages would produce this
cycle (`handleCoreSpawnOperations`, `handleIncubationSpawnOperations`,
`handleAssignedSpawnOperations`, `handleInferredSpawnOperations`). -/
structure StageEnv (α : Type) where
  core : Option α
  incubation : Option α
  assigned : Option α
  inferred : Option α

/-- How many times each stage handler has been invoked. -/
structure StageCalls where
  core : Nat
  incubation : Nat
  assigned : Nat
  inferred : Nat
deriving DecidableEq, Repr

def noCalls : StageCalls := ⟨0, 0, 0, 0⟩

/-- Invoking one stage: returns its result and bumps its call count. -/
def callCore (env : StageEnv α) (s : StageCalls) : Option α × StageCalls :=
  (env.core, { s with core := s.core + 1 })

def callIncubation (env : StageEnv α) (s : StageCalls) : Option α × StageCalls :=
  (env.incubation, { s with incubation := s.incubation + 1 })

def callAssigned (env : StageEnv α) (s : StageCalls) : Option α × StageCalls :=
  (env.assigned, { s with assigned := s.assigned + 1 })

def callInferred (env : StageEnv α) (s : StageCalls) : Option α × StageCalls :=
  (env.inferred, { s with inferred := s.inferred + 1 })

/-- The loop over `prioritizedSpawnOperations` (lines 676-681): invoke
the stages in order and return the first non-null response; stages after
it are not invoked. -/
def runStages : List (StageCalls → Option α × StageCalls) → StageCalls →
    Option α × StageCalls
  | [], s => (none, s)
  | f :: fs, s =>
    match f s with
    | (some d, s') => (some d, s')
    | (none, s') => runStages fs s'

/-- `handleSpawnOperations` (lines 664-686): only runs when an available
(non-busy) spawn exists; stage order is core, incubation, assigned,
inferred.  The returned directive is handed to the actuator
(`spawn.createCreep`); we return the directive itself together with the
stage call counts. -/
def handleSpawnOperations (hasSpawn spawning : Bool) (env : StageEnv α) :
    Option α × StageCalls :=
  if hasSpawn ∧ ¬spawning then
    runStages [callCore env, callIncubation env, callAssigned env, callInferred env]
      noCalls
  else (none, noCalls)

/-! ## Concrete instances (used by witnesses and counterexamples) -/

/-- A blank game object to build concrete instances from. -/
def baseObj : Obj :=
  { oid := 0, otype := "", hits := 0, hitsMax := 0, amount := 0, store := 0,
    energy := 0, energyCapacity := 0, alive := true }

/-- An empty room snapshot. -/
def baseRoom : Room :=
  { name := "W0N0", droppedEnergy := [], containers := [], towers := [],
    sinks := [], repairables := [], structureSites := [], roadSites := [],
    barriers := [], controller := none }

def capsA : String → Nat := fun _ => 3

def distA : Creep → Obj → ℚ := fun _ o => (o.oid : ℚ)

def targeted0 : Nat → Nat := fun _ => 0

/-- A damaged road (10% hits). -/
def roadObjA : Obj := { baseObj with oid := 1, otype := "road", hits := 100, hitsMax := 1000 }

def roomA : Room := { baseRoom with name := "W1N1", repairables := [roadObjA] }

def workerA : Creep :=
  { role := "worker", carryParts := 0, workParts := 1, carryEnergy := 10,
    carryCapacity := 50, room := "W1N1" }

/-- The repair task `getTasks` derives for `roadObjA` under `capsA`. -/
def taskA : Task :=
  { name := "repair", category := "repair", target := roadObjA, maxPerTarget := 3 }

/-- C3 counterexample scenario: one container that is both a collect
candidate (store 2000 > 1000) and a repair candidate (hits 100 <
0.7 * 1000), with a smaller cap on the recharge task class than on the
repair task class, and one creep already targeting it. -/
def contObj3 : Obj :=
  { baseObj with
    oid := 1
    otype := "container"
    hits := 100
    hitsMax := 1000
    store := 2000 }

def room3 : Room :=
  { baseRoom with name := "W3N3", containers := [contObj3], repairables := [contObj3] }

def caps3 : String → Nat := fun n => if n = "recharge" then 1 else 2

def targeted1 : Nat → Nat := fun _ => 1

def worker3 : Creep := { workerA with room := "W3N3" }

def caps3c : String → Nat := fun _ => 2

/-- C5 scenario: three fortify candidates with hit points 500, 2000 and
100; the 100-hit barrier is made the farthest by the distance oracle. -/
def barrier500 : Obj := { baseObj with oid := 1, otype := "rampart", hits := 500, hitsMax := 3000000 }

def barrier2000 : Obj := { baseObj with oid := 2, otype := "rampart", hits := 2000, hitsMax := 3000000 }

def barrier100 : Obj := { baseObj with oid := 3, otype := "rampart", hits := 100, hitsMax := 3000000 }

def ctrlObj5 : Obj := { baseObj with oid := 10, otype := "controller" }

def room5 : Room :=
  { baseRoom with
    name := "W5N5"
    barriers := [barrier500, barrier2000, barrier100]
    controller := some { obj := ctrlObj5, my := true, level := 4 } }

def worker5 : Creep := { workerA with room := "W5N5" }

def dist5 : Creep → Obj → ℚ := fun _ o => if o.oid = 3 then 50 else 1

def task100 : Task :=
  { name := "fortify", category := "fortify", target := barrier100, maxPerTarget := 3 }

/-- C6 scenario: two construction sites, the lower id nearer under
`distA`. -/
def siteObj1 : Obj := { baseObj with oid := 1, otype := "constructionSite" }

def siteObj2 : Obj := { baseObj with oid := 2, otype := "constructionSite" }

def room6 : Room :=
  { baseRoom with name := "W6N6", structureSites := [siteObj1, siteObj2] }

def worker6 : Creep := { workerA with room := "W6N6" }

def taskSite1 : Task :=
  { name := "build", category := "build", target := siteObj1, maxPerTarget := 3 }

/-- C9 scenario: a dropped-energy pile above the pickup threshold plus a
collectable container, and a hauler with free capacity. -/
def dropObj9 : Obj := { baseObj with oid := 1, otype := "energy", amount := 200 }

def contObj9 : Obj := { baseObj with oid := 2, otype := "container", store := 2000 }

def room9 : Room :=
  { baseRoom with name := "W9N9", droppedEnergy := [dropObj9], containers := [contObj9] }

def hauler9 : Creep :=
  { role := "hauler", carryParts := 1, workParts := 0, carryEnergy := 0,
    carryCapacity := 100, room := "W9N9" }

def task9 : Task :=
  { name := "recharge", category := "collect", target := contObj9, maxPerTarget := 3 }

/-- C10 scenario: a level-8 controller and a worker with repair work
available. -/
def ctrlObj10 : Obj := { baseObj with oid := 5, otype := "controller" }

def ctrl10 : Controller := { obj := ctrlObj10, my := true, level := 8 }

def room10 : Room :=
  { baseRoom with
    name := "W10N10"
    repairables := [roadObjA]
    controller := some ctrl10 }

def worker10 : Creep := { workerA with room := "W10N10" }

/-- C8 scenario: two fortify candidates; the most damaged one no longer
exists (`alive := false`), while a live candidate remains. -/
def barrierDead : Obj :=
  { baseObj with
    oid := 1
    otype := "rampart"
    hits := 100
    hitsMax := 3000000
    alive := false }

def barrierLive : Obj :=
  { baseObj with oid := 2, otype := "rampart", hits := 500, hitsMax := 3000000 }

def room8 : Room :=
  { baseRoom with name := "W8N8", barriers := [barrierDead, barrierLive] }

def worker8 : Creep := { workerA with room := "W8N8" }

def taskDead : Task :=
  { name := "fortify", category := "fortify", target := barrierDead, maxPerTarget := 3 }

def taskLive : Task :=
  { name := "fortify", category := "fortify", target := barrierLive, maxPerTarget := 3 }

/-- C1 scenario: hauler pattern with 1 CARRY part and length 2 at cost
100, energy capacity 1000, path length 55 — the required size computes
to 25 and the maximum affordable size to 10. -/
def ctxC1 : HaulerCtx :=
  { hasSpawn := true, hasRoom := true, hasStorage := true, sourceLinked := false,
    storageLinked := false, energyCapacityAvailable := 1000, haulerCarryParts := 1,
    haulerPatternLength := 2, haulerSpawnCost := 100, pathLengthToStorage := 55 }

/-- C4 scenario: the core stage produces directive `7`; the incubation
stage would produce `8`. -/
def envC4 : StageEnv Nat :=
  { core := some 7, incubation := some 8, assigned := none, inferred := none }

def envC4none : StageEnv Nat :=
  { core := none, incubation := none, assigned := none, inferred := none }

instance (caps : String → Nat) (incubating : Bool) (room : Room)
    (targeted : Nat → Nat) : Decidable (catalogInv caps incubating room targeted) := by
  unfold catalogInv; infer_instance

instance (caps : String → Nat) (incubating : Bool) (room : Room) :
    Decidable (capsConsistent caps incubating room) := by
  unfold capsConsistent; infer_instance

/-! ## Helper lemmas -/

theorem jsFloor_eq (q : ℚ) : jsFloor q = ⌊q⌋ := (Rat.floor_def).symm

theorem jsCeil_eq (q : ℚ) : jsCeil q = ⌈q⌉ := by
  rw [jsCeil, jsFloor_eq, Int.floor_neg, neg_neg]

theorem mem_mkTasks {t : Task} {n c : String} {cap : Nat} {l : List Obj} :
    t ∈ mkTasks n c cap l ↔
      ∃ o ∈ l, t = { name := n, category := c, target := o, maxPerTarget := cap } := by
  simp only [mkTasks, List.mem_map]
  constructor
  · rintro ⟨o, ho, rfl⟩; exact ⟨o, ho, rfl⟩
  · rintro ⟨o, ho, rfl⟩; exact ⟨o, ho, rfl⟩

/-- Every task catalogued under a task type carries that task type as
its category. -/
theorem getTasks_category {caps : String → Nat} {incubating : Bool} {room : Room}
    {tt : String} {t : Task} (h : t ∈ getTasks caps incubating room tt) :
    t.category = tt := by
  unfold getTasks at h
  split at h <;>
    try (rw [mem_mkTasks] at h; obtain ⟨o, _, rfl⟩ := h; rfl)
  · split at h
    · split at h
      · rw [mem_mkTasks] at h; obtain ⟨o, _, rfl⟩ := h; rfl
      · exact absurd h (List.not_mem_nil _)
    · exact absurd h (List.not_mem_nil _)
  · exact absurd h (List.not_mem_nil _)

/-- Every task catalogued under a task type carries the task-class name
`taskToExecute` assigns to that type. -/
theorem getTasks_name {caps : String → Nat} {incubating : Bool} {room : Room}
    {tt : String} {t : Task} (h : t ∈ getTasks caps incubating room tt) :
    t.name = taskToExecute tt := by
  unfold getTasks at h
  split at h <;>
    try (rw [mem_mkTasks] at h; obtain ⟨o, _, rfl⟩ := h; rfl)
  · split at h
    · split at h
      · rw [mem_mkTasks] at h; obtain ⟨o, _, rfl⟩ := h; rfl
      · exact absurd h (List.not_mem_nil _)
    · exact absurd h (List.not_mem_nil _)
  · exact absurd h (List.not_mem_nil _)

theorem sortByFirst_mem {f : Task → ℚ} : ∀ {l : List Task} {y : Task},
    sortByFirst f l = some y → y ∈ l
  | [], y, h => by simp [sortByFirst] at h
  | x :: xs, y, h => by
    unfold sortByFirst at h
    split at h
    · cases h; exact List.mem_cons_self _ _
    next z hz =>
      split at h
      · cases h; exact List.mem_cons_self _ _
      · cases h; exact List.mem_cons_of_mem _ (sortByFirst_mem hz)

theorem sortByFirst_eq_none {f : Task → ℚ} {l : List Task} :
    sortByFirst f l = none ↔ l = [] := by
  cases l with
  | nil => simp [sortByFirst]
  | cons x xs =>
    constructor
    · intro h
      exfalso
      cases hz : sortByFirst f xs with
      | none =>
        simp only [sortByFirst, hz] at h
        exact Option.noConfusion h
      | some z =>
        simp only [sortByFirst, hz] at h
        split at h <;> exact Option.noConfusion h
    · intro h; cases h

theorem sortByFirst_le {f : Task → ℚ} : ∀ {l : List Task} {y : Task},
    sortByFirst f l = some y → ∀ x ∈ l, f y ≤ f x
  | [], y, h => by simp [sortByFirst] at h
  | x :: xs, y, h => by
    cases hz : sortByFirst f xs with
    | none =>
      simp only [sortByFirst, hz] at h
      cases h
      have hxs : xs = [] := sortByFirst_eq_none.mp hz
      subst hxs
      intro a ha
      rcases List.mem_cons.mp ha with rfl | h0
      · exact le_refl _
      · simp at h0
    | some z =>
      simp only [sortByFirst, hz] at h
      by_cases hle : f x ≤ f z
      · rw [if_pos hle] at h
        cases h
        intro a ha
        rcases List.mem_cons.mp ha with rfl | ha'
        · exact le_refl _
        · exact le_trans hle (sortByFirst_le hz a ha')
      · rw [if_neg hle] at h
        cases h
        intro a ha
        rcases List.mem_cons.mp ha with rfl | ha'
        · exact le_of_not_le hle
        · exact sortByFirst_le hz a ha'

/-- First-success decomposition of the priority walk: a non-empty result
is exactly the capped-filtered task list of the first ranked task type
whose filtered list is non-empty. -/
theorem gmu_decomp {caps : String → Nat} {incubating : Bool} {room : Room}
    {targeted : Nat → Nat} : ∀ {L : List String},
    getMostUrgentTask caps incubating room targeted L ≠ [] →
    ∃ X c Y, L = X ++ c :: Y ∧
      getMostUrgentTask caps incubating room targeted L =
        filteredTasks caps incubating room targeted c ∧
      filteredTasks caps incubating room targeted c ≠ [] ∧
      ∀ x ∈ X, filteredTasks caps incubating room targeted x = []
  | [], h => absurd rfl h
  | tt :: rest, h => by
    by_cases hpos : 0 < (filteredTasks caps incubating room targeted tt).length
    · refine ⟨[], tt, rest, rfl, ?_, ?_, by simp⟩
      · simp only [getMostUrgentTask, if_pos hpos]
      · exact List.length_pos.mp hpos
    · have hnil : filteredTasks caps incubating room targeted tt = [] := by
        rcases List.eq_nil_or_concat (filteredTasks caps incubating room targeted tt)
          with hn | ⟨l, a, hc⟩
        · exact hn
        · exact absurd (by simp [hc]) hpos
      have hrec : getMostUrgentTask caps incubating room targeted (tt :: rest) =
          getMostUrgentTask caps incubating room targeted rest := by
        simp only [getMostUrgentTask, if_neg hpos]
      rw [hrec] at h
      obtain ⟨X, c, Y, hL, hres, hne, hX⟩ := gmu_decomp h
      refine ⟨tt :: X, c, Y, by simp [hL], by rw [hrec, hres], hne, ?_⟩
      intro x hx
      rcases List.mem_cons.mp hx with rfl | hx'
      · exact hnil
      · exact hX x hx'

/-- If some ranked task type has a non-empty capped-filtered list, the
walk stops at it or at an earlier type. -/
theorem gmu_stops {caps : String → Nat} {incubating : Bool} {room : Room}
    {targeted : Nat → Nat} {catA : String} : ∀ {L : List String}, catA ∈ L →
    filteredTasks caps incubating room targeted catA ≠ [] →
    ∃ X c Y, L = X ++ c :: Y ∧
      getMostUrgentTask caps incubating room targeted L =
        filteredTasks caps incubating room targeted c ∧
      filteredTasks caps incubating room targeted c ≠ [] ∧
      (c = catA ∨ catA ∈ Y)
  | [], hmem, _ => absurd hmem (List.not_mem_nil _)
  | tt :: rest, hmem, hA => by
    by_cases hpos : 0 < (filteredTasks caps incubating room targeted tt).length
    · refine ⟨[], tt, rest, rfl, ?_, List.length_pos.mp hpos, ?_⟩
      · simp only [getMostUrgentTask, if_pos hpos]
      · rcases List.mem_cons.mp hmem with rfl | hm
        · exact Or.inl rfl
        · exact Or.inr hm
    · have hnil : filteredTasks caps incubating room targeted tt = [] := by
        rcases List.eq_nil_or_concat (filteredTasks caps incubating room targeted tt)
          with hn | ⟨l, a, hc⟩
        · exact hn
        · exact absurd (by simp [hc]) hpos
      have hne : catA ≠ tt := fun hcontra => hA (hcontra ▸ hnil)
      have hm : catA ∈ rest := by
        rcases List.mem_cons.mp hmem with rfl | hm
        · exact absurd rfl hne
        · exact hm
      have hrec : getMostUrgentTask caps incubating room targeted (tt :: rest) =
          getMostUrgentTask caps incubating room targeted rest := by
        simp only [getMostUrgentTask, if_neg hpos]
      obtain ⟨X, c, Y, hL, hres, hcne, hcY⟩ := gmu_stops hm hA
      exact ⟨tt :: X, c, Y, by simp [hL], by rw [hrec, hres], hcne, hcY⟩

/-- Membership in the priority-walk result: the task comes from the
catalog of some ranked type and its targeted-by count is below its
cap. -/
theorem mem_gmu {caps : String → Nat} {incubating : Bool} {room : Room}
    {targeted : Nat → Nat} {t : Task} : ∀ {L : List String},
    t ∈ getMostUrgentTask caps incubating room targeted L →
    ∃ c ∈ L, t ∈ getTasks caps incubating room c ∧
      targeted t.target.oid < t.maxPerTarget
  | [], h => absurd h (List.not_mem_nil _)
  | tt :: rest, h => by
    by_cases hpos : 0 < (filteredTasks caps incubating room targeted tt).length
    · rw [show getMostUrgentTask caps incubating room targeted (tt :: rest) =
          filteredTasks caps incubating room targeted tt from by
            simp only [getMostUrgentTask, if_pos hpos]] at h
      unfold filteredTasks at h
      rw [List.mem_filter] at h
      exact ⟨tt, List.mem_cons_self _ _, h.1, by simpa using h.2⟩
    · rw [show getMostUrgentTask caps incubating room targeted (tt :: rest) =
          getMostUrgentTask caps incubating room targeted rest from by
            simp only [getMostUrgentTask, if_neg hpos]] at h
      obtain ⟨c, hc, hmem, hcap⟩ := mem_gmu h
      exact ⟨c, List.mem_cons_of_mem _ hc, hmem, hcap⟩

/-- The chosen task is a member of the priority-walk result. -/
theorem chooseTask_mem {caps : String → Nat} {incubating : Bool} {room : Room}
    {dist : Creep → Obj → ℚ} {targeted : Nat → Nat} {creep : Creep} {t : Task}
    (h : chooseTask caps incubating room dist targeted creep = some t) :
    t ∈ getMostUrgentTask caps incubating room targeted
      (applicableTasks room creep) := by
  cases hres : getMostUrgentTask caps incubating room targeted
      (applicableTasks room creep) with
  | nil =>
    simp only [chooseTask, hres] at h
    exact Option.noConfusion h
  | cons t0 ts =>
    simp only [chooseTask, hres] at h
    split at h
    · exact sortByFirst_mem h
    · split at h
      · exact sortByFirst_mem h
      · cases h; exact List.mem_cons_self _ _

/-- The eligibility filter narrows the priority ranking. -/
theorem applicable_sublist (room : Room) (creep : Creep) :
    (applicableTasks room creep).Sublist taskPriorities :=
  List.filter_sublist _

theorem mem_applicable {room : Room} {creep : Creep} {tt : String} :
    tt ∈ applicableTasks room creep ↔
      tt ∈ taskPriorities ∧ (assignmentRoles room tt).contains creep.role = true ∧
        assignmentConditions tt creep = true := by
  unfold applicableTasks
  rw [List.mem_filter, Bool.and_eq_true]

theorem taskPriorities_nodup : taskPriorities.Nodup := by decide

/-- In a duplicate-free list `M`, if a sublist of `M` places `a` strictly
before `b`, then `a`'s index in `M` is at most `b`'s. -/
theorem indexOf_le_of_sublist : ∀ {M : List String}, M.Nodup →
    ∀ {X Y : List String} {a b : String},
      (X ++ a :: Y).Sublist M → b ∈ Y → M.indexOf a ≤ M.indexOf b := by
  intro M
  induction M with
  | nil =>
    intro _ X Y a b hsub _
    have hnil : (X ++ a :: Y) = [] := List.sublist_nil.mp hsub
    exact absurd hnil (by simp)
  | cons m M' ih =>
    intro hM X Y a b hsub hb
    have hMnd : M'.Nodup := (List.nodup_cons.mp hM).2
    have hmnot : m ∉ M' := (List.nodup_cons.mp hM).1
    rcases List.sublist_cons_iff.mp hsub with hsub' | ⟨r, hr, hrsub⟩
    · have ha' : a ∈ M' := hsub'.subset (by simp)
      have hb' : b ∈ M' := hsub'.subset (by simp [hb])
      have ham : m ≠ a := fun hc => hmnot (hc ▸ ha')
      have hbm : m ≠ b := fun hc => hmnot (hc ▸ hb')
      rw [List.indexOf_cons_ne _ ham, List.indexOf_cons_ne _ hbm]
      exact Nat.succ_le_succ (ih hMnd hsub' hb)
    · cases X with
      | nil =>
        simp only [List.nil_append] at hr
        obtain ⟨rfl, rfl⟩ : a = m ∧ Y = r := ⟨by injection hr, by injection hr⟩
        rw [List.indexOf_cons_self]
        exact Nat.zero_le _
      | cons x X' =>
        simp only [List.cons_append] at hr
        obtain ⟨hxm, hrr⟩ : x = m ∧ X' ++ a :: Y = r :=
          ⟨by injection hr, by injection hr⟩
        subst hrr
        have ha' : a ∈ M' := hrsub.subset (by simp)
        have hb' : b ∈ M' := hrsub.subset (by simp [hb])
        have ham : m ≠ a := fun hc => hmnot (hc ▸ ha')
        have hbm : m ≠ b := fun hc => hmnot (hc ▸ hb')
        rw [List.indexOf_cons_ne _ ham, List.indexOf_cons_ne _ hbm]
        exact Nat.succ_le_succ (ih hMnd hrsub hb)

/-! ## Claim theorems -/

/-- C7: the repair catalog only lists damaged targets (`hits < hitsMax`),
and lists containers and roads only when their damage exceeds 30% of max
(`hits < 0.7 * hitsMax`); in particular no repair item has
`hits ≥ hitsMax`. -/
theorem repair_catalog_pred (caps : String → Nat) (incubating : Bool) (room : Room)
    (t : Task) (h : t ∈ getTasks caps incubating room "repair") :
    t.target.hits < t.target.hitsMax ∧
    (t.target.otype = "container" → t.target.hits < 0.7 * t.target.hitsMax) ∧
    (t.target.otype = "road" → t.target.hits < 0.7 * t.target.hitsMax) := by
  have h' : t ∈ mkTasks "repair" "repair" (caps "repair")
      (room.repairables.filter fun s =>
        decide (s.hits < s.hitsMax) &&
        (decide (s.otype ≠ "container") || decide (s.hits < 0.7 * s.hitsMax)) &&
        (decide (s.otype ≠ "road") || decide (s.hits < 0.7 * s.hitsMax))) := h
  rw [mem_mkTasks] at h'
  obtain ⟨o, ho, rfl⟩ := h'
  rw [List.mem_filter] at ho
  have hcond := ho.2
  simp only [Bool.and_eq_true, Bool.or_eq_true, decide_eq_true_eq] at hcond
  refine ⟨hcond.1.1, ?_, ?_⟩
  · intro hc
    rcases hcond.1.2 with hne | hlt
    · exact absurd hc hne
    · exact hlt
  · intro hc
    rcases hcond.2 with hne | hlt
    · exact absurd hc hne
    · exact hlt

/-- C7 witness: the 10%-hits road of `roomA` is catalogued for repair and
satisfies the predicate. -/
theorem repair_catalog_pred_witness :
    taskA ∈ getTasks capsA false roomA "repair" ∧
    (taskA.target.hits < taskA.target.hitsMax ∧
     (taskA.target.otype = "container" → taskA.target.hits < 0.7 * taskA.target.hitsMax) ∧
     (taskA.target.otype = "road" → taskA.target.hits < 0.7 * taskA.target.hitsMax)) :=
  ⟨by decide, repair_catalog_pred capsA false roomA taskA (by decide)⟩

/-- C9: the pickup category's allowed-roles set is empty, so no creep —
whatever its role and capacity — is ever assigned a pickup task. -/
theorem pickup_never_assigned (caps : String → Nat) (incubating : Bool) (room : Room)
    (dist : Creep → Obj → ℚ) (targeted : Nat → Nat) (creep : Creep) (t : Task)
    (h : chooseTask caps incubating room dist targeted creep = some t) :
    t.category ≠ "pickup" := by
  intro hcat
  obtain ⟨c, hcL, hmemT, _⟩ := mem_gmu (chooseTask_mem h)
  have htc : t.category = c := getTasks_category hmemT
  rw [hcat] at htc
  rw [← htc] at hcL
  have hroles : assignmentRoles room "pickup" = [] := by
    unfold assignmentRoles
    rw [if_neg (by simp)]
    rfl
  have hc := (mem_applicable.mp hcL).2.1
  rw [hroles] at hc
  exact Bool.noConfusion hc

/-- C9 witness: `room9` has a dropped-energy work item, yet the hauler is
assigned the collect task, not pickup. -/
theorem pickup_never_assigned_witness :
    chooseTask capsA false room9 distA targeted0 hauler9 = some task9 ∧
    getTasks capsA false room9 "pickup" ≠ [] ∧
    task9.category ≠ "pickup" :=
  ⟨by decide, by decide,
   pickup_never_assigned capsA false room9 distA targeted0 hauler9 task9 (by decide)⟩

/-- C10: in a level-8 room the upgrade category allows only upgraders,
so a worker is never assigned an upgrade task there; below level 8 both
workers and upgraders are allowed. -/
theorem upgrade_level8_roles (caps : String → Nat) (incubating : Bool) (room : Room)
    (dist : Creep → Obj → ℚ) (targeted : Nat → Nat) (creep : Creep) (ctrl : Controller)
    (hc : room.controller = some ctrl) (hrole : creep.role = "worker") :
    (ctrl.level = 8 → ∀ t, chooseTask caps incubating room dist targeted creep = some t →
       t.category ≠ "upgrade") ∧
    (ctrl.level ≠ 8 → assignmentRoles room "upgrade" = ["worker", "upgrader"]) := by
  constructor
  · intro h8 t ht hcat
    obtain ⟨c, hcL, hmemT, _⟩ := mem_gmu (chooseTask_mem ht)
    have htc : t.category = c := getTasks_category hmemT
    rw [hcat] at htc
    rw [← htc] at hcL
    have hl8 : controllerLevel8 room = true := by
      simp [controllerLevel8, hc, h8]
    have hroles : assignmentRoles room "upgrade" = ["upgrader"] := by
      unfold assignmentRoles
      rw [if_pos ⟨rfl, hl8⟩]
    have hcontains := (mem_applicable.mp hcL).2.1
    rw [hroles, hrole] at hcontains
    simp [List.contains] at hcontains
  · intro hne
    have hl8 : controllerLevel8 room = false := by
      simp [controllerLevel8, hc]
      exact hne
    unfold assignmentRoles
    rw [if_neg (by rintro ⟨-, hcl⟩; rw [hl8] at hcl; exact Bool.noConfusion hcl)]
    rfl

/-- C10 witness: in the level-8 `room10` the worker is assigned repair,
and the theorem rules out upgrade. -/
theorem upgrade_level8_roles_witness :
    room10.controller = some ctrl10 ∧ worker10.role = "worker" ∧ ctrl10.level = 8 ∧
    chooseTask capsA false room10 distA targeted0 worker10 =
      some { name := "repair", category := "repair", target := roadObjA, maxPerTarget := 3 } ∧
    ({ name := "repair", category := "repair", target := roadObjA,
       maxPerTarget := 3 } : Task).category ≠ "upgrade" :=
  ⟨by decide, by decide, by decide, by decide,
   (upgrade_level8_roles capsA false room10 distA targeted0 worker10 ctrl10
      (by decide) (by decide)).1 (by decide) _ (by decide)⟩

/-- Among the ranked task types, only the fortify type executes the
fortify task class. -/
theorem taskToExecute_fortify :
    ∀ c ∈ taskPriorities, taskToExecute c = "fortify" → c = "fortify" := by decide

/-- C5: when the chosen category is fortify, the selected work item has
the lowest hit points among all candidates, regardless of the distance
oracle. -/
theorem fortify_lowest_hits (caps : String → Nat) (incubating : Bool) (room : Room)
    (dist : Creep → Obj → ℚ) (targeted : Nat → Nat) (creep : Creep) (t : Task)
    (h : chooseTask caps incubating room dist targeted creep = some t)
    (hf : t.category = "fortify") :
    ∀ t' ∈ getMostUrgentTask caps incubating room targeted (applicableTasks room creep),
      t.target.hits ≤ t'.target.hits := by
  have hmem := chooseTask_mem h
  have hne : getMostUrgentTask caps incubating room targeted
      (applicableTasks room creep) ≠ [] := List.ne_nil_of_mem hmem
  obtain ⟨X, c, Y, hL, hres, hfne, hX⟩ := gmu_decomp hne
  have htf : t ∈ filteredTasks caps incubating room targeted c := hres ▸ hmem
  have htc : t.category = c := getTasks_category (List.mem_filter.mp htf).1
  have hcf : c = "fortify" := by rw [← htc, hf]
  cases hgmu : getMostUrgentTask caps incubating room targeted
      (applicableTasks room creep) with
  | nil => exact absurd hgmu hne
  | cons t0 ts =>
    have ht0 : t0 ∈ filteredTasks caps incubating room targeted c := by
      rw [← hres, hgmu]; exact List.mem_cons_self _ _
    have ht0name : t0.name = "fortify" := by
      have hn := getTasks_name (List.mem_filter.mp ht0).1
      rw [hn, hcf]
      rfl
    simp only [chooseTask, hgmu] at h
    rw [if_pos ht0name] at h
    intro t' ht'
    exact sortByFirst_le h t' (hgmu ▸ ht')

/-- C5 witness: with fortify candidates at 500, 2000 and 100 hit points
and a distance oracle that puts the 100-hit item farthest, the 100-hit
item is selected. -/
theorem fortify_lowest_hits_witness :
    chooseTask capsA false room5 dist5 targeted0 worker5 = some task100 ∧
    task100.category = "fortify" ∧ task100.target.hits = 100 ∧
    (∀ t' ∈ getMostUrgentTask capsA false room5 targeted0
        (applicableTasks room5 worker5),
      task100.target.hits ≤ t'.target.hits) :=
  ⟨by decide, by decide, by decide,
   fortify_lowest_hits capsA false room5 dist5 targeted0 worker5 task100
     (by decide) (by decide)⟩

/-- C6: for a chosen category other than fortify, a creep inside the
room gets the candidate closest under the distance oracle, and a creep
in another room gets the first candidate in catalog order. -/
theorem nonfortify_tiebreak (caps : String → Nat) (incubating : Bool) (room : Room)
    (dist : Creep → Obj → ℚ) (targeted : Nat → Nat) (creep : Creep) (t : Task)
    (h : chooseTask caps incubating room dist targeted creep = some t)
    (hnf : t.category ≠ "fortify") :
    (creep.room = room.name →
      ∀ t' ∈ getMostUrgentTask caps incubating room targeted (applicableTasks room creep),
        dist creep t.target ≤ dist creep t'.target) ∧
    (creep.room ≠ room.name →
      (getMostUrgentTask caps incubating room targeted
        (applicableTasks room creep)).head? = some t) := by
  have hmem := chooseTask_mem h
  have hne : getMostUrgentTask caps incubating room targeted
      (applicableTasks room creep) ≠ [] := List.ne_nil_of_mem hmem
  obtain ⟨X, c, Y, hL, hres, hfne, hX⟩ := gmu_decomp hne
  have htf : t ∈ filteredTasks caps incubating room targeted c := hres ▸ hmem
  have htc : t.category = c := getTasks_category (List.mem_filter.mp htf).1
  have hcP : c ∈ taskPriorities := by
    have : c ∈ applicableTasks room creep := by
      rw [hL]; exact List.mem_append_right _ (List.mem_cons_self _ _)
    exact (mem_applicable.mp this).1
  cases hgmu : getMostUrgentTask caps incubating room targeted
      (applicableTasks room creep) with
  | nil => exact absurd hgmu hne
  | cons t0 ts =>
    have ht0 : t0 ∈ filteredTasks caps incubating room targeted c := by
      rw [← hres, hgmu]; exact List.mem_cons_self _ _
    have ht0name : t0.name = taskToExecute c :=
      getTasks_name (List.mem_filter.mp ht0).1
    have ht0nf : ¬ t0.name = "fortify" := by
      rw [ht0name]
      intro hcontra
      exact hnf (htc ▸ taskToExecute_fortify c hcP hcontra ▸ rfl)
    simp only [chooseTask, hgmu] at h
    rw [if_neg ht0nf] at h
    constructor
    · intro hin
      rw [if_pos hin] at h
      intro t' ht'
      exact sortByFirst_le h t' (hgmu ▸ ht')
    · intro hout
      rw [if_neg hout] at h
      cases h
      rfl

/-- C6 witness: two construction sites; the in-room worker gets the
nearer one under the distance oracle. -/
theorem nonfortify_tiebreak_witness :
    chooseTask capsA false room6 distA targeted0 worker6 = some taskSite1 ∧
    taskSite1.category ≠ "fortify" ∧ worker6.room = room6.name ∧
    (∀ t' ∈ getMostUrgentTask capsA false room6 targeted0
        (applicableTasks room6 worker6),
      distA worker6 taskSite1.target ≤ distA worker6 t'.target) :=
  ⟨by decide, by decide, by decide,
   (nonfortify_tiebreak capsA false room6 distA targeted0 worker6 taskSite1
      (by decide) (by decide)).1 (by decide)⟩

/-- C2: priority exhaustion — if a category the creep is eligible for
has an uncapped work item, the chosen task never comes from a category
ranked after it (`List.indexOf` into the priority ranking: smaller index
means higher priority). -/
theorem priority_exhaustion (caps : String → Nat) (incubating : Bool) (room : Room)
    (dist : Creep → Obj → ℚ) (targeted : Nat → Nat) (creep : Creep)
    (catA : String) (t : Task)
    (hA : catA ∈ applicableTasks room creep)
    (hex : ∃ tA ∈ getTasks caps incubating room catA,
      targeted tA.target.oid < tA.maxPerTarget)
    (h : chooseTask caps incubating room dist targeted creep = some t) :
    taskPriorities.indexOf t.category ≤ taskPriorities.indexOf catA := by
  have hfA : filteredTasks caps incubating room targeted catA ≠ [] := by
    obtain ⟨tA, hmemA, hcapA⟩ := hex
    exact List.ne_nil_of_mem
      (List.mem_filter.mpr ⟨hmemA, by simpa using hcapA⟩)
  obtain ⟨X, c, Y, hL, hres, hcne, hcY⟩ := gmu_stops hA hfA
  have hmem := chooseTask_mem h
  have htc : t.category = c := getTasks_category (List.mem_filter.mp (hres ▸ hmem)).1
  rw [htc]
  rcases hcY with rfl | hY
  · exact le_refl _
  · exact indexOf_le_of_sublist taskPriorities_nodup
      (hL ▸ applicable_sublist room creep) hY

/-- C2 witness: the worker is eligible for repair, repair has an
uncapped item, and the chosen task's category ranks at or above
repair. -/
theorem priority_exhaustion_witness :
    "repair" ∈ applicableTasks roomA workerA ∧
    (∃ tA ∈ getTasks capsA false roomA "repair",
      targeted0 tA.target.oid < tA.maxPerTarget) ∧
    chooseTask capsA false roomA distA targeted0 workerA = some taskA ∧
    taskPriorities.indexOf taskA.category ≤ taskPriorities.indexOf "repair" :=
  ⟨by decide, ⟨taskA, by decide, by decide⟩, by decide,
   priority_exhaustion capsA false roomA distA targeted0 workerA "repair" taskA
     (by decide) ⟨taskA, by decide, by decide⟩ (by decide)⟩

/-- C4: the production scheduler invokes its stages in the fixed order
core, incubation, assigned, inferred; the first stage with a non-empty
result short-circuits the later stages (their call counts stay 0), and
the call returns that single directive — or none when no stage
matched. -/
theorem scheduler_short_circuit {α : Type} (env : StageEnv α) (hasSpawn spawning : Bool)
    (hs : hasSpawn = true) (hn : spawning = false) :
    (∀ d : α, env.core = some d →
       handleSpawnOperations hasSpawn spawning env = (some d, ⟨1, 0, 0, 0⟩)) ∧
    (∀ d : α, env.core = none → env.incubation = some d →
       handleSpawnOperations hasSpawn spawning env = (some d, ⟨1, 1, 0, 0⟩)) ∧
    (∀ d : α, env.core = none → env.incubation = none → env.assigned = some d →
       handleSpawnOperations hasSpawn spawning env = (some d, ⟨1, 1, 1, 0⟩)) ∧
    (env.core = none → env.incubation = none → env.assigned = none →
     env.inferred = none →
       handleSpawnOperations hasSpawn spawning env = (none, ⟨1, 1, 1, 1⟩)) := by
  subst hs hn
  refine ⟨?_, ?_, ?_, ?_⟩
  · intro d hcore
    simp [handleSpawnOperations, runStages, callCore, callIncubation, callAssigned,
      callInferred, noCalls, hcore]
  · intro d hcore hinc
    simp [handleSpawnOperations, runStages, callCore, callIncubation, callAssigned,
      callInferred, noCalls, hcore, hinc]
  · intro d hcore hinc hass
    simp [handleSpawnOperations, runStages, callCore, callIncubation, callAssigned,
      callInferred, noCalls, hcore, hinc, hass]
  · intro hcore hinc hass hinf
    simp [handleSpawnOperations, runStages, callCore, callIncubation, callAssigned,
      callInferred, noCalls, hcore, hinc, hass, hinf]

/-- C4 witness: with the core stage producing directive 7 and the
incubation stage ready to produce 8, the scheduler returns 7 having
invoked only the core stage. -/
theorem scheduler_short_circuit_witness :
    envC4.core = some 7 ∧
    handleSpawnOperations true false envC4 = (some 7, ⟨1, 0, 0, 0⟩) :=
  ⟨rfl, (scheduler_short_circuit envC4 true false rfl rfl).1 7 rfl⟩

/-- C1 counterexample: with required hauler size 25 and maximum
affordable size 10 the code returns `haulerSize = 9`, not 10 — the
per-hauler size is recomputed from the real-valued hauler count 2.5
(`ceil(10 * (2.5 / 3)) = ceil(25/3) = 9`), not from the rounded count 3
as the claim's `ceil(10 * 3/3) = 10` asserts. -/
theorem hauler_split_claim_cex :
    calculateHaulerSize ctxC1 = 25 ∧ maxHaulerSizeOf ctxC1 = 10 ∧
    calculateHaulerRequirements ctxC1 = (9, 3) ∧
    (calculateHaulerRequirements ctxC1).1 ≠ 10 := by decide

/-- C1 amended: when the required size exceeds the maximum affordable
size (positive), the calculation returns
`numHaulers = ceil(requiredSize / maxSize)` and a per-hauler size of
`ceil(maxSize * (ratio / ceil(ratio)))` — equal to
`ceil(requiredSize / numHaulers)` — whose total
`haulerSize * numHaulers` never under-provisions the required size. -/
theorem hauler_split_amended (ctx : HaulerCtx)
    (hgate : ctx.hasSpawn ∧ ctx.hasRoom ∧ ctx.hasStorage)
    (hlink : ¬(ctx.sourceLinked ∧ ctx.storageLinked))
    (hmax : 0 < maxHaulerSizeOf ctx)
    (hgt : maxHaulerSizeOf ctx < calculateHaulerSize ctx) :
    (calculateHaulerRequirements ctx).2 =
      ((⌈calculateHaulerSize ctx / maxHaulerSizeOf ctx⌉ : ℤ) : ℚ) ∧
    calculateHaulerSize ctx ≤
      (calculateHaulerRequirements ctx).1 * (calculateHaulerRequirements ctx).2 := by
  have hreq : calculateHaulerRequirements ctx =
      ((jsCeil (maxHaulerSizeOf ctx *
          ((calculateHaulerSize ctx / maxHaulerSizeOf ctx) /
            (jsCeil (calculateHaulerSize ctx / maxHaulerSizeOf ctx) : ℚ))) : ℚ),
       (jsCeil (calculateHaulerSize ctx / maxHaulerSizeOf ctx) : ℚ)) := by
    unfold calculateHaulerRequirements
    rw [if_pos hgate, if_neg hlink, if_pos hgt]
  set s := calculateHaulerSize ctx with hs
  set m := maxHaulerSizeOf ctx with hm
  have hm0 : m ≠ 0 := ne_of_gt hmax
  have hn1 : 1 < s / m := (one_lt_div hmax).mpr hgt
  set n := s / m with hn
  have hNn : n ≤ ((⌈n⌉ : ℤ) : ℚ) := Int.le_ceil n
  have hN1 : (1 : ℚ) < ((⌈n⌉ : ℤ) : ℚ) := lt_of_lt_of_le hn1 hNn
  have hN0 : (0 : ℚ) < ((⌈n⌉ : ℤ) : ℚ) := lt_trans zero_lt_one hN1
  constructor
  · rw [hreq]
    simp only [jsCeil_eq]
  · rw [hreq]
    simp only [jsCeil_eq]
    have hmn : m * (n / ((⌈n⌉ : ℤ) : ℚ)) = s / ((⌈n⌉ : ℤ) : ℚ) := by
      rw [hn, ← mul_div_assoc, mul_div_assoc', mul_comm, mul_div_assoc,
        div_self hm0, mul_one]
    rw [hmn]
    have hle : s / ((⌈n⌉ : ℤ) : ℚ) ≤ ((⌈s / ((⌈n⌉ : ℤ) : ℚ)⌉ : ℤ) : ℚ) :=
      Int.le_ceil _
    calc s = s / ((⌈n⌉ : ℤ) : ℚ) * ((⌈n⌉ : ℤ) : ℚ) := by
            rw [div_mul_cancel₀ _ (ne_of_gt hN0)]
      _ ≤ ((⌈s / ((⌈n⌉ : ℤ) : ℚ)⌉ : ℤ) : ℚ) * ((⌈n⌉ : ℤ) : ℚ) := by
            exact mul_le_mul_of_nonneg_right hle (le_of_lt hN0)

/-- C1 amended witness: at required size 25 and maximum size 10 the
result is the 3 haulers of the claim but of size 9 each, and
9 * 3 = 27 ≥ 25 — no under-provisioning. -/
theorem hauler_split_amended_witness :
    (0 < maxHaulerSizeOf ctxC1 ∧ maxHaulerSizeOf ctxC1 < calculateHaulerSize ctxC1) ∧
    (calculateHaulerRequirements ctxC1).2 =
      ((⌈calculateHaulerSize ctxC1 / maxHaulerSizeOf ctxC1⌉ : ℤ) : ℚ) ∧
    calculateHaulerSize ctxC1 ≤
      (calculateHaulerRequirements ctxC1).1 * (calculateHaulerRequirements ctxC1).2 :=
  ⟨⟨by decide, by decide⟩,
   hauler_split_amended ctxC1 (by decide) (by decide) (by decide) (by decide)⟩

/-- One assignment preserves the catalog cap invariant, provided work
items sharing a target agree on their cap. -/
theorem assignTask_preserves {caps : String → Nat} {incubating : Bool} {room : Room}
    {dist : Creep → Obj → ℚ} {creep : Creep} {targeted : Nat → Nat}
    (hcaps : capsConsistent caps incubating room)
    (hinv : catalogInv caps incubating room targeted) :
    catalogInv caps incubating room
      (assignTask caps incubating room dist creep targeted).2 := by
  cases hch : chooseTask caps incubating room dist targeted creep with
  | none => simpa only [assignTask, hch] using hinv
  | some tc =>
    simp only [assignTask, hch, creepAssign]
    by_cases halive : tc.target.alive = true
    · rw [if_pos halive]
      intro tt htt t ht
      simp only
      by_cases heq : t.target.oid = tc.target.oid
      · rw [if_pos heq]
        obtain ⟨c, hcL, hmemT, hcap⟩ := mem_gmu (chooseTask_mem hch)
        have hcP : c ∈ taskPriorities := (mem_applicable.mp hcL).1
        have hshare : t.maxPerTarget = tc.maxPerTarget :=
          hcaps tt htt c hcP t ht tc hmemT heq
        rw [heq, hshare]
        exact hcap
      · rw [if_neg heq]
        exact hinv tt htt t ht
    · rw [if_neg halive]
      exact hinv

/-- A whole cycle of assignments preserves the catalog cap invariant. -/
theorem assignSeq_preserves {caps : String → Nat} {incubating : Bool} {room : Room}
    {dist : Creep → Obj → ℚ} (hcaps : capsConsistent caps incubating room) :
    ∀ (creeps : List Creep) (targeted : Nat → Nat),
      catalogInv caps incubating room targeted →
      catalogInv caps incubating room
        (assignSeq caps incubating room dist creeps targeted)
  | [], _, hinv => hinv
  | _ :: rest, _, hinv =>
    assignSeq_preserves hcaps rest _ (assignTask_preserves hcaps hinv)

/-- C3 counterexample: targeted-by counts are shared per target while
caps are per task class.  `room3`'s container is both a collect
candidate (cap 1 for the recharge class) and a repair candidate (cap 2),
with one creep already targeting it: the worker's repair commitment is
allowed by the repair cap, after which the collect work item on the same
container exceeds its cap — the claimed invariant fails although it held
before the `assign` call. -/
theorem commit_cap_claim_cex :
    catalogInv caps3 false room3 targeted1 ∧
    ¬ catalogInv caps3 false room3
        (assignSeq caps3 false room3 distA [worker3] targeted1) := by decide

/-- C3 amended: `assign` commits only to a work item whose count is
strictly below its cap at the moment of commitment, and — provided all
work items sharing a target carry the same cap — any sequence of
`assign` calls preserves the invariant that no work item's count exceeds
its cap. -/
theorem commit_cap_amended (caps : String → Nat) (incubating : Bool) (room : Room)
    (dist : Creep → Obj → ℚ) (hcaps : capsConsistent caps incubating room) :
    (∀ (targeted : Nat → Nat) (creeps : List Creep),
      catalogInv caps incubating room targeted →
      catalogInv caps incubating room
        (assignSeq caps incubating room dist creeps targeted)) ∧
    (∀ (targeted : Nat → Nat) (creep : Creep) (t : Task),
      chooseTask caps incubating room dist targeted creep = some t →
      targeted t.target.oid < t.maxPerTarget) := by
  constructor
  · intro targeted creeps hinv
    exact assignSeq_preserves hcaps creeps targeted hinv
  · intro targeted creep t h
    obtain ⟨c, _, _, hcap⟩ := mem_gmu (chooseTask_mem h)
    exact hcap

/-- C3 amended witness: with a uniform cap the invariant holds after the
worker's assignment in `room3`. -/
theorem commit_cap_amended_witness :
    capsConsistent caps3c false room3 ∧
    catalogInv caps3c false room3 targeted1 ∧
    catalogInv caps3c false room3
      (assignSeq caps3c false room3 distA [worker3] targeted1) :=
  ⟨by decide, by decide,
   (commit_cap_amended caps3c false room3 distA (by decide)).1 targeted1 [worker3]
     (by decide)⟩

/-- C8 counterexample: in `room8` the most damaged fortify candidate no
longer exists; the commit step (modelled from the spec as re-validating
target existence) refuses it, but `assignTask` does not skip to the next
candidate — it returns no assignment and commits nothing, even though a
live, uncapped candidate remains in the list. -/
theorem stale_target_claim_cex :
    chooseTask capsA false room8 distA targeted0 worker8 = some taskDead ∧
    taskDead.target.alive = false ∧
    taskLive ∈ getMostUrgentTask capsA false room8 targeted0
      (applicableTasks room8 worker8) ∧
    taskLive.target.alive = true ∧
    targeted0 taskLive.target.oid < taskLive.maxPerTarget ∧
    (assignTask capsA false room8 distA worker8 targeted0).1 = "" ∧
    (assignTask capsA false room8 distA worker8 targeted0).2
      taskLive.target.oid = 0 := by decide

/-- C8 amended: when the chosen work item's target has ceased to exist,
the commit step (modelled from the spec) re-validates existence and
commits nothing — the creep is left unassigned for the cycle rather than
being committed to a dead target; no next candidate is tried. -/
theorem stale_target_amended (caps : String → Nat) (incubating : Bool) (room : Room)
    (dist : Creep → Obj → ℚ) (creep : Creep) (targeted : Nat → Nat) (t : Task)
    (h : chooseTask caps incubating room dist targeted creep = some t)
    (hdead : t.target.alive = false) :
    assignTask caps incubating room dist creep targeted = ("", targeted) := by
  simp [assignTask, h, creepAssign, hdead]

/-- C8 amended witness: the dead 100-hit barrier is chosen, and the
assignment call returns no assignment and leaves the counts
unchanged. -/
theorem stale_target_amended_witness :
    chooseTask capsA false room8 distA targeted0 worker8 = some taskDead ∧
    taskDead.target.alive = false ∧
    assignTask capsA false room8 distA worker8 targeted0 = ("", targeted0) :=
  ⟨by decide, by decide,
   stale_target_amended capsA false room8 distA worker8 targeted0 taskDead
     (by decide) (by decide)⟩

end BrainModel

end Overmind
